import Mathlib

/-!
Shallow embedding of the Interaction Model message/addressing layer of
matter-rs (`src/matter/src/interaction_model/messages.rs` and
`src/matter/src/data_model/system_model/descriptor.rs`).

Machine integers are modelled as `Nat`; the only narrowing conversion the
embedded code performs (`x as u16` on a `u32`) is written explicitly as
`% 65536`.  Widening conversions (`x as u32` on a `u16`) are lossless and
modelled as the identity.  Rust `Result<T, E>` is `Except E T`; a Rust
`panic!` branch is modelled as `Option.none`.
-/

/-- Protocol status code.  External collaborator `IMStatusCode`
(`interaction_model/core.rs`, not part of the embedded sources); the embedded
code never inspects it, so it is modelled as an opaque numeric token. -/
structure IMStatusCode where
  code : Nat
  deriving DecidableEq, Repr

/-- The error type (`error.rs`, external collaborator); only the two
constructors the embedded code produces are modelled. -/
inductive Error where
  | Invalid
  | CommandNotFound
  deriving DecidableEq, Repr

/-- `Nullable<T>` of the TLV layer: a present field that may carry the
encoded null instead of a value (distinct from an absent `Option`). -/
inductive Nullable (α : Type) where
  | null
  | notNull (a : α)
  deriving DecidableEq, Repr

/-- `GenericPath`: endpoint, cluster and leaf, each optionally present
(absent = wildcard).  `EndptId` is `u16`, `ClusterId` is `u32`, the leaf is
`u32`; all are modelled as `Nat`. -/
structure GenericPath where
  endpoint : Option Nat
  cluster : Option Nat
  leaf : Option Nat
  deriving DecidableEq, Repr

/-- `GenericPath::new`. -/
def GenericPath.new (endpoint cluster leaf : Option Nat) : GenericPath :=
  { endpoint := endpoint, cluster := cluster, leaf := leaf }

/-- `GenericPath::not_wildcard`: returns the concrete triple iff all three
components are present, otherwise `Error::Invalid`. -/
def GenericPath.not_wildcard (p : GenericPath) : Except Error (Nat × Nat × Nat) :=
  match p with
  | { endpoint := some e, cluster := some c, leaf := some l } => Except.ok (e, c, l)
  | _ => Except.error Error.Invalid

/-- `GenericPath::is_wildcard`: true iff the path is not fully concrete. -/
def GenericPath.is_wildcard (p : GenericPath) : Bool :=
  !(match p with
    | { endpoint := some _, cluster := some _, leaf := some _ } => true
    | _ => false)

/-- `AttrPath` (`ib::AttrPath`): attribute addressing form.  The attribute id
(`AttrId`) is `u16`.  Defaults model `..Default::default()`. -/
structure AttrPath where
  tag_compression : Option Bool := none
  node : Option Nat := none
  endpoint : Option Nat := none
  cluster : Option Nat := none
  attr : Option Nat := none
  list_index : Option (Nullable Nat) := none
  deriving DecidableEq, Repr

/-- `AttrPath::new`: projects a `GenericPath`, narrowing the `u32` leaf to a
`u16` attribute id (`x as u16`, i.e. truncation mod 2^16); the remaining
fields stay at their defaults. -/
def AttrPath.new (path : GenericPath) : AttrPath :=
  { endpoint := path.endpoint
    cluster := path.cluster
    attr := path.leaf.map (fun x => x % 65536) }

/-- `AttrPath::to_gp`: widens the `u16` attribute id back to a `u32` leaf
(`x as u32`, lossless). -/
def AttrPath.to_gp (p : AttrPath) : GenericPath :=
  GenericPath.new p.endpoint p.cluster (p.attr.map (fun x => x))

/-- `CmdPath`: wraps a `GenericPath`. -/
structure CmdPath where
  path : GenericPath
  deriving DecidableEq, Repr

/-- `CmdPath::new`: the `u16` command id is widened to the `u32` leaf
(`a as u32`, lossless). -/
def CmdPath.new (endpoint cluster command : Option Nat) : CmdPath :=
  { path := { endpoint := endpoint, cluster := cluster, leaf := command.map (fun a => a) } }

/-- `FromTLV for CmdPath`.  The inner derived `GenericPath::from_tlv` (TLV
codec, external collaborator) is modelled by its result, passed as the
argument: `?` propagates its error, then a path whose leaf is absent is
rejected with `Error::CommandNotFound`. -/
def CmdPath.from_tlv (decoded : Except Error GenericPath) : Except Error CmdPath :=
  match decoded with
  | Except.error e => Except.error e
  | Except.ok gp =>
    match gp.leaf with
    | none => Except.error Error.CommandNotFound
    | some _ => Except.ok { path := gp }

/-- `Except.isOk` as used below. -/
def exceptIsOk {ε α : Type} : Except ε α → Bool
  | Except.ok _ => true
  | Except.error _ => false

/-- C3: `not_wildcard` returns the concrete triple iff all components are
present and `Error::Invalid` otherwise; `is_wildcard` is true iff some
component is absent; hence `is_wildcard = !not_wildcard.isOk`. -/
theorem C3_not_wildcard_is_wildcard (p : GenericPath) :
    (∀ e c l, p = { endpoint := some e, cluster := some c, leaf := some l } →
      p.not_wildcard = Except.ok (e, c, l)) ∧
    ((p.endpoint = none ∨ p.cluster = none ∨ p.leaf = none) →
      p.not_wildcard = Except.error Error.Invalid) ∧
    (p.is_wildcard = true ↔ (p.endpoint = none ∨ p.cluster = none ∨ p.leaf = none)) ∧
    p.is_wildcard = !(exceptIsOk p.not_wildcard) := by
  obtain ⟨e, c, l⟩ := p
  cases e <;> cases c <;> cases l <;>
    simp [GenericPath.not_wildcard, GenericPath.is_wildcard, exceptIsOk]

/-- Witness for C3 at a concrete wildcard path. -/
theorem C3_not_wildcard_is_wildcard_witness :
    GenericPath.not_wildcard { endpoint := some 1, cluster := none, leaf := some 2 } =
      Except.error Error.Invalid ∧
    GenericPath.is_wildcard { endpoint := some 1, cluster := none, leaf := some 2 } = true := by
  have h := C3_not_wildcard_is_wildcard { endpoint := some 1, cluster := none, leaf := some 2 }
  exact ⟨h.2.1 (Or.inr (Or.inl rfl)), h.2.2.1.mpr (Or.inr (Or.inl rfl))⟩

/-- C4: `AttrPath.new` then `to_gp` is the identity whenever the leaf is
absent or fits in 16 bits; `new` leaves node, list index and tag compression
unset; and for any leaf the narrowing is truncation mod 2^16 (never
rejection). -/
theorem C4_attr_path_round_trip (gp : GenericPath) :
    ((∀ v, gp.leaf = some v → v < 65536) → (AttrPath.new gp).to_gp = gp) ∧
    (AttrPath.new gp).node = none ∧
    (AttrPath.new gp).list_index = none ∧
    (AttrPath.new gp).tag_compression = none ∧
    (AttrPath.new gp).attr = gp.leaf.map (fun x => x % 65536) := by
  obtain ⟨e, c, l⟩ := gp
  refine ⟨?_, rfl, rfl, rfl, rfl⟩
  intro h
  cases l with
  | none => rfl
  | some v =>
    have hv : v % 65536 = v := Nat.mod_eq_of_lt (h v rfl)
    simp [AttrPath.new, AttrPath.to_gp, GenericPath.new, hv]

/-- Witness for C4 at a concrete in-range path. -/
theorem C4_attr_path_round_trip_witness :
    (AttrPath.new { endpoint := some 3, cluster := some 29, leaf := some 40000 }).to_gp =
      { endpoint := some 3, cluster := some 29, leaf := some 40000 } :=
  (C4_attr_path_round_trip { endpoint := some 3, cluster := some 29, leaf := some 40000 }).1
    (by intro v hv; cases hv; decide)

/-- C5: decoding a `CmdPath` whose leaf is absent fails with
`Error::CommandNotFound` for every endpoint/cluster combination, and decoding
succeeds exactly when the inner path decoded and its leaf is present. -/
theorem C5_cmd_path_from_tlv (d : Except Error GenericPath) :
    (∀ e c, d = Except.ok { endpoint := e, cluster := c, leaf := none } →
      CmdPath.from_tlv d = Except.error Error.CommandNotFound) ∧
    (exceptIsOk (CmdPath.from_tlv d) = true ↔
      ∃ gp l, d = Except.ok gp ∧ gp.leaf = some l) := by
  constructor
  · rintro e c rfl
    rfl
  · cases d with
    | error e => simp [CmdPath.from_tlv, exceptIsOk]
    | ok gp =>
      obtain ⟨pe, pc, pl⟩ := gp
      cases pl <;> simp [CmdPath.from_tlv, exceptIsOk]

/-- Witness for C5 at a concrete leafless path. -/
theorem C5_cmd_path_from_tlv_witness :
    CmdPath.from_tlv (Except.ok { endpoint := some 9, cluster := some 6, leaf := none }) =
      Except.error Error.CommandNotFound :=
  (C5_cmd_path_from_tlv
      (Except.ok { endpoint := some 9, cluster := some 6, leaf := none })).1
    (some 9) (some 6) rfl

/-- `EncodeValue` (external collaborator, `data_model/objects`): an opaque
payload — either a computed value or a deferred encode closure.  The embedded
code only stores and forwards it, so it is modelled as an opaque token. -/
structure EncodeValue where
  token : Nat
  deriving DecidableEq, Repr

/-- `ib::Status`: protocol status code plus cluster-specific sub-code. -/
structure Status where
  status : IMStatusCode
  cluster_status : Nat
  deriving DecidableEq, Repr

/-- `Status::new`. -/
def Status.new (status : IMStatusCode) (cluster_status : Nat) : Status :=
  { status := status, cluster_status := cluster_status }

/-- `ib::AttrStatus`: a path paired with a status. -/
structure AttrStatus where
  path : AttrPath
  status : Status
  deriving DecidableEq, Repr

/-- `ib::AttrData`: optional data version, attribute path and payload. -/
structure AttrData where
  data_ver : Option Nat
  path : AttrPath
  data : EncodeValue
  deriving DecidableEq, Repr

/-- `AttrData::new`. -/
def AttrData.new (data_ver : Option Nat) (path : AttrPath) (data : EncodeValue) : AttrData :=
  { data_ver := data_ver, path := path, data := data }

/-- `ib::AttrResp`: attribute response, either a status or data. -/
inductive AttrResp where
  | Status (s : AttrStatus)
  | Data (d : AttrData)
  deriving DecidableEq, Repr

/-- `AttrResp::new`: builds the `Data` variant with `Some(data_ver)`. -/
def AttrResp.new (data_ver : Nat) (path : AttrPath) (data : EncodeValue) : AttrResp :=
  AttrResp.Data (AttrData.new (some data_ver) path data)

/-- `AttrResp::unwrap_data`: returns the contained data on the `Data`
variant; the `Status` variant hits `panic!`, modelled as `none`. -/
def AttrResp.unwrap_data : AttrResp → Option AttrData
  | AttrResp.Data d => some d
  | _ => none

/-- `ib::CmdData`: a command path and its payload. -/
structure CmdData where
  path : CmdPath
  data : EncodeValue
  deriving DecidableEq, Repr

/-- `CmdData::new`. -/
def CmdData.new (path : CmdPath) (data : EncodeValue) : CmdData :=
  { path := path, data := data }

/-- `ib::CmdStatus`: a command path paired with a status. -/
structure CmdStatus where
  path : CmdPath
  status : Status
  deriving DecidableEq, Repr

/-- `ib::InvResp`: invoke response, either command data or a status. -/
inductive InvResp where
  | Cmd (c : CmdData)
  | Status (s : CmdStatus)
  deriving DecidableEq, Repr

/-- `InvResp::cmd_new`: builds the `Cmd` variant around a fully concrete
command path (`cmd` is `u16`, widened to the `u32` leaf). -/
def InvResp.cmd_new (endpoint cluster cmd : Nat) (data : EncodeValue) : InvResp :=
  InvResp.Cmd (CmdData.new (CmdPath.new (some endpoint) (some cluster) (some cmd)) data)

/-- `ib::EventPath`. -/
structure EventPath where
  node : Option Nat
  endpoint : Option Nat
  cluster : Option Nat
  event : Option Nat
  is_urgent : Option Bool
  deriving DecidableEq, Repr

/-- `ib::EventFilter`. -/
structure EventFilter where
  node : Option Nat
  event_min : Option Nat
  deriving DecidableEq, Repr

/-- `ib::ClusterPath`: non-optional endpoint and cluster. -/
structure ClusterPath where
  node : Option Nat
  endpoint : Nat
  cluster : Nat
  deriving DecidableEq, Repr

/-- `ib::DataVersionFilter`. -/
structure DataVersionFilter where
  path : ClusterPath
  data_ver : Nat
  deriving DecidableEq, Repr

/-- `msg::SubscribeReq`.  `TLVArray` borrows are modelled as lists; the
reserved discontiguous tag slot is the `dummy` field (`_dummy` in the
source). -/
structure SubscribeReq where
  keep_subs : Bool
  min_int_floor : Nat
  max_int_ceil : Nat
  attr_requests : Option (List AttrPath)
  event_requests : Option (List EventPath)
  event_filters : Option (List EventFilter)
  dummy : Option Bool
  fabric_filtered : Bool
  dataver_filters : Option (List DataVersionFilter)
  deriving DecidableEq, Repr

/-- `msg::ReadReq`. -/
structure ReadReq where
  attr_requests : Option (List AttrPath)
  event_requests : Option (List EventPath)
  event_filters : Option (List EventFilter)
  fabric_filtered : Bool
  dataver_filters : Option (List DataVersionFilter)
  deriving DecidableEq, Repr

/-- `SubscribeReq::to_read_req`: copies the five shared fields into a
`ReadReq`. -/
def SubscribeReq.to_read_req (s : SubscribeReq) : ReadReq :=
  { attr_requests := s.attr_requests
    event_requests := s.event_requests
    event_filters := s.event_filters
    fabric_filtered := s.fabric_filtered
    dataver_filters := s.dataver_filters }

/-- C6: `to_read_req` preserves attribute requests, event requests, event
filters, the fabric-filtered flag and data-version filters, and its result
does not depend on the subscription-only fields (`keep_subs`, the interval
bounds, the reserved slot) — the `ReadReq` type carries no such fields. -/
theorem C6_subscribe_to_read_req (s : SubscribeReq) :
    ((s.to_read_req).attr_requests = s.attr_requests ∧
     (s.to_read_req).event_requests = s.event_requests ∧
     (s.to_read_req).event_filters = s.event_filters ∧
     (s.to_read_req).fabric_filtered = s.fabric_filtered ∧
     (s.to_read_req).dataver_filters = s.dataver_filters) ∧
    (∀ ks mif mic dm,
      SubscribeReq.to_read_req
        { s with keep_subs := ks, min_int_floor := mif, max_int_ceil := mic, dummy := dm } =
        s.to_read_req) := by
  exact ⟨⟨rfl, rfl, rfl, rfl, rfl⟩, fun ks mif mic dm => rfl⟩

/-- C7: `AttrResp::new` always yields the `Data` variant carrying
`Some(data_ver)`, the given path and the given payload, never the `Status`
variant. -/
theorem C7_attr_resp_new (dv : Nat) (p : AttrPath) (d : EncodeValue) :
    (∃ ad, AttrResp.new dv p d = AttrResp.Data ad ∧
      ad.data_ver = some dv ∧ ad.path = p ∧ ad.data = d) ∧
    (∀ st, AttrResp.new dv p d ≠ AttrResp.Status st) := by
  refine ⟨⟨AttrData.new (some dv) p d, rfl, rfl, rfl, rfl⟩, fun st h => ?_⟩
  cases h

/-- C8: `unwrap_data` returns the contained `AttrData` on the `Data` variant
and signals a defect (the `panic!` branch, modelled as `none`) on the
`Status` variant; when the receiver is the `Data` variant the defect branch
is unreachable. -/
theorem C8_unwrap_data (r : AttrResp) :
    (∀ d, AttrResp.unwrap_data (AttrResp.Data d) = some d) ∧
    (∀ st, AttrResp.unwrap_data (AttrResp.Status st) = none) ∧
    ((∃ d, r = AttrResp.Data d) → ∃ d, r.unwrap_data = some d ∧ r = AttrResp.Data d) := by
  refine ⟨fun d => rfl, fun st => rfl, ?_⟩
  rintro ⟨d, rfl⟩
  exact ⟨d, rfl, rfl⟩

/-- Witness for C8 at a concrete `Data` response. -/
theorem C8_unwrap_data_witness :
    ∃ d, (AttrResp.Data (AttrData.new (some 5) {} { token := 0 })).unwrap_data = some d ∧
      AttrResp.Data (AttrData.new (some 5) {} { token := 0 }) = AttrResp.Data d :=
  (C8_unwrap_data (AttrResp.Data (AttrData.new (some 5) {} { token := 0 }))).2.2
    ⟨AttrData.new (some 5) {} { token := 0 }, rfl⟩

/-- C9: `InvResp::cmd_new` yields the `Cmd` variant whose path has all three
components present (the leaf being the widened command id), so the path is
never a wildcard and `not_wildcard` succeeds with the original triple. -/
theorem C9_inv_resp_cmd_new (ep cl cmd : Nat) (d : EncodeValue) :
    ∃ cd, InvResp.cmd_new ep cl cmd d = InvResp.Cmd cd ∧
      cd.path.path.endpoint = some ep ∧
      cd.path.path.cluster = some cl ∧
      cd.path.path.leaf = some cmd ∧
      cd.path.path.not_wildcard = Except.ok (ep, cl, cmd) ∧
      cd.path.path.is_wildcard = false ∧
      cd.data = d := by
  exact ⟨CmdData.new (CmdPath.new (some ep) (some cl) (some cmd)) d,
    rfl, rfl, rfl, rfl, rfl, rfl, rfl⟩

/-- `TLVElement` at the shape granularity `attr_list_write` inspects
(external codec boundary): the encoded null sentinel, an array container
holding its elements, or any other single value (scalar/struct), carried as
an opaque token. -/
inductive TLVElement where
  | null
  | array (elems : List TLVElement)
  | scalar (v : Nat)

/-- `TLVElement::null().is_ok()`: the element is the encoded null. -/
def TLVElement.null_ok : TLVElement → Bool
  | TLVElement.null => true
  | _ => false

/-- `TLVElement::confirm_array().is_ok()`: the element is an array. -/
def TLVElement.confirm_array_ok : TLVElement → Bool
  | TLVElement.array _ => true
  | _ => false

/-- `TLVElement::enter()`: iterate a container's elements; fails on
non-containers. -/
def TLVElement.enter : TLVElement → Option (List TLVElement)
  | TLVElement.array xs => some xs
  | _ => none

/-- `ib::ListOperation`. -/
inductive ListOperation where
  | AddItem
  | EditItem (i : Nat)
  | DeleteItem (i : Nat)
  | DeleteList
  deriving DecidableEq, Repr

/-- `AttrDetails` (external collaborator, `data_model/objects`), reduced to
the one field `attr_list_write` reads: the attribute path's
`list_index: Option<Nullable<u16>>`. -/
structure AttrDetails where
  list_index : Option (Nullable Nat)
  deriving DecidableEq, Repr

/-- The `for d in container { f(AddItem, &d)? }` loop of `attr_list_write`:
invoke the callback with `AddItem` per element in order, stopping at the
first error.  The `FnMut` callback is modelled state-passing, with explicit
state `σ`. -/
def attr_list_write_items {σ : Type}
    (f : ListOperation → TLVElement → σ → σ × Except IMStatusCode Unit) :
    List TLVElement → σ → σ × Except IMStatusCode Unit
  | [], s => (s, Except.ok ())
  | d :: ds, s =>
    match f ListOperation.AddItem d s with
    | (t, Except.ok _) => attr_list_write_items f ds t
    | (t, Except.error e) => (t, Except.error e)

/-- `ib::attr_list_write`: infer the list operation from the list index and
the payload shape and drive the callback.  The `Error::Invalid` arm of
`enter().ok_or(...)` is modelled with an arbitrary status token; it is
unreachable here because `confirm_array` implies `enter` succeeds. -/
def attr_list_write {σ : Type} (attr : AttrDetails) (data : TLVElement)
    (f : ListOperation → TLVElement → σ → σ × Except IMStatusCode Unit) (s : σ) :
    σ × Except IMStatusCode Unit :=
  match attr.list_index with
  | some (Nullable.notNull index) =>
    if data.null_ok then
      f (ListOperation.DeleteItem index) data s
    else
      f (ListOperation.EditItem index) data s
  | _ =>
    if data.confirm_array_ok then
      match f ListOperation.DeleteList data s with
      | (t, Except.ok _) =>
        match data.enter with
        | some xs => attr_list_write_items f xs t
        | none => (t, Except.error (IMStatusCode.mk 0))
      | (t, Except.error e) => (t, Except.error e)
    else
      f ListOperation.AddItem data s

/-- Instrumentation of a callback: alongside the callback's own state, keep
the list of invocations `(operation, element)` in order, so theorems can
speak about how often and with what the callback was invoked. -/
def traced {σ : Type} (f : ListOperation → TLVElement → σ → σ × Except IMStatusCode Unit) :
    ListOperation → TLVElement → σ × List (ListOperation × TLVElement) →
      (σ × List (ListOperation × TLVElement)) × Except IMStatusCode Unit :=
  fun op d p => (((f op d p.1).1, p.2 ++ [(op, d)]), (f op d p.1).2)

/-- Run `attr_list_write` with a pure (state-free) callback, returning the
invocation log and the overall result. -/
def attr_list_write_log (attr : AttrDetails) (data : TLVElement)
    (g : ListOperation → TLVElement → Except IMStatusCode Unit) :
    List (ListOperation × TLVElement) × Except IMStatusCode Unit :=
  attr_list_write attr data (fun op d log => (log ++ [(op, d)], g op d)) []

lemma attr_list_write_items_traced {σ : Type}
    (f : ListOperation → TLVElement → σ → σ × Except IMStatusCode Unit)
    (hok : ∀ op d t, (f op d t).2 = Except.ok ()) :
    ∀ (xs : List TLVElement) (t : σ) (log : List (ListOperation × TLVElement)),
      (attr_list_write_items (traced f) xs (t, log)).1.2 =
        log ++ xs.map (fun d => (ListOperation.AddItem, d)) := by
  intro xs
  induction xs with
  | nil => intro t log; simp [attr_list_write_items]
  | cons d ds ih =>
    intro t log
    rcases hfd : f ListOperation.AddItem d t with ⟨u, r⟩
    have hr : r = Except.ok () := by
      have h := hok ListOperation.AddItem d t
      rw [hfd] at h
      exact h
    subst hr
    simp only [attr_list_write_items, traced, hfd]
    rw [ih u (log ++ [(ListOperation.AddItem, d)])]
    simp

/-- C1: the `attr_list_write` decision table, for every callback and every
callback state, with invocations observed through `traced`.  (1) With a
present non-null list index `i` the callback runs exactly once — on
`DeleteItem i` when the payload is the encoded null, on `EditItem i`
otherwise — and that invocation's state and result are returned.  (2) With
no such index and an array payload the callback sees `DeleteList` first and
then `AddItem` once per element in array order (when no invocation
rejects).  (3) With no such index and a non-array payload the callback runs
exactly once on `AddItem` and its result is returned. -/
theorem C1_attr_list_write_decision_table {σ : Type} (attr : AttrDetails)
    (data : TLVElement)
    (f : ListOperation → TLVElement → σ → σ × Except IMStatusCode Unit) (s : σ) :
    (∀ i, attr.list_index = some (Nullable.notNull i) → data.null_ok = true →
      attr_list_write attr data (traced f) (s, []) =
        (((f (ListOperation.DeleteItem i) data s).1, [(ListOperation.DeleteItem i, data)]),
          (f (ListOperation.DeleteItem i) data s).2)) ∧
    (∀ i, attr.list_index = some (Nullable.notNull i) → data.null_ok = false →
      attr_list_write attr data (traced f) (s, []) =
        (((f (ListOperation.EditItem i) data s).1, [(ListOperation.EditItem i, data)]),
          (f (ListOperation.EditItem i) data s).2)) ∧
    ((∀ i, attr.list_index ≠ some (Nullable.notNull i)) →
      ∀ xs, data = TLVElement.array xs →
      (∀ op d t, (f op d t).2 = Except.ok ()) →
      (attr_list_write attr data (traced f) (s, [])).1.2 =
        (ListOperation.DeleteList, data) ::
          xs.map (fun d => (ListOperation.AddItem, d))) ∧
    ((∀ i, attr.list_index ≠ some (Nullable.notNull i)) →
      data.confirm_array_ok = false →
      attr_list_write attr data (traced f) (s, []) =
        (((f ListOperation.AddItem data s).1, [(ListOperation.AddItem, data)]),
          (f ListOperation.AddItem data s).2)) := by
  refine ⟨?_, ?_, ?_, ?_⟩
  · intro i hi hnull
    simp [attr_list_write, hi, hnull, traced]
  · intro i hi hnull
    simp [attr_list_write, hi, hnull, traced]
  · intro hni xs hdata hok
    subst hdata
    rcases hfd : f ListOperation.DeleteList (TLVElement.array xs) s with ⟨u, r⟩
    have hr : r = Except.ok () := by
      have h := hok ListOperation.DeleteList (TLVElement.array xs) s
      rw [hfd] at h
      exact h
    subst hr
    obtain ⟨li⟩ := attr
    have hmain :
        (attr_list_write ⟨li⟩ (TLVElement.array xs) (traced f) (s, [])).1.2 =
          (attr_list_write_items (traced f) xs
            (u, [(ListOperation.DeleteList, TLVElement.array xs)])).1.2 := by
      cases li with
      | none =>
        simp [attr_list_write, TLVElement.confirm_array_ok, TLVElement.enter, traced, hfd]
      | some nl =>
        cases nl with
        | null =>
          simp [attr_list_write, TLVElement.confirm_array_ok, TLVElement.enter, traced, hfd]
        | notNull i => exact absurd rfl (hni i)
    rw [hmain, attr_list_write_items_traced f hok xs u
      [(ListOperation.DeleteList, TLVElement.array xs)]]
    simp
  · intro hni harr
    obtain ⟨li⟩ := attr
    cases li with
    | none => simp [attr_list_write, harr, traced]
    | some nl =>
      cases nl with
      | null => simp [attr_list_write, harr, traced]
      | notNull i => exact absurd rfl (hni i)

/-- A concrete state-counting callback that always succeeds, for the C1
witness. -/
def fW : ListOperation → TLVElement → Nat → Nat × Except IMStatusCode Unit :=
  fun _ _ t => (t + 1, Except.ok ())

/-- Witness for C1: whole-list replace of a one-element array issues
`DeleteList` then `AddItem` on that element. -/
theorem C1_attr_list_write_decision_table_witness :
    (attr_list_write { list_index := none } (TLVElement.array [TLVElement.scalar 5])
        (traced fW) (0, [])).1.2 =
      (ListOperation.DeleteList, TLVElement.array [TLVElement.scalar 5]) ::
        List.map (fun d => (ListOperation.AddItem, d)) [TLVElement.scalar 5] :=
  (C1_attr_list_write_decision_table { list_index := none }
      (TLVElement.array [TLVElement.scalar 5]) fW 0).2.2.1
    (fun _ h => Option.noConfusion h) [TLVElement.scalar 5] rfl (fun _ _ _ => rfl)

/-- C2: if a pure callback accepts the `DeleteList` and the first `AddItem`
of a 3-element whole-list replace but rejects the second `AddItem`, then the
callback was invoked exactly on `DeleteList`, `AddItem a`, `AddItem b` (in
that order, so never on `AddItem c`), the two accepted effects being all
that reached the caller, and the callback's error is returned. -/
theorem C2_attr_list_write_abort (a b c : TLVElement)
    (g : ListOperation → TLVElement → Except IMStatusCode Unit) (e : IMStatusCode)
    (hdel : g ListOperation.DeleteList (TLVElement.array [a, b, c]) = Except.ok ())
    (ha : g ListOperation.AddItem a = Except.ok ())
    (hb : g ListOperation.AddItem b = Except.error e) :
    attr_list_write_log { list_index := none } (TLVElement.array [a, b, c]) g =
      ([(ListOperation.DeleteList, TLVElement.array [a, b, c]),
        (ListOperation.AddItem, a), (ListOperation.AddItem, b)],
       Except.error e) := by
  simp [attr_list_write_log, attr_list_write, attr_list_write_items,
    TLVElement.confirm_array_ok, TLVElement.enter, hdel, ha, hb]

/-- A concrete pure callback rejecting exactly `AddItem` of the element
`scalar 2`, for the C2 witness. -/
def gW : ListOperation → TLVElement → Except IMStatusCode Unit
  | ListOperation.AddItem, TLVElement.scalar 2 => Except.error { code := 7 }
  | _, _ => Except.ok ()

/-- Witness for C2 on the array `[scalar 1, scalar 2, scalar 3]`. -/
theorem C2_attr_list_write_abort_witness :
    attr_list_write_log { list_index := none }
        (TLVElement.array [TLVElement.scalar 1, TLVElement.scalar 2, TLVElement.scalar 3]) gW =
      ([(ListOperation.DeleteList,
          TLVElement.array [TLVElement.scalar 1, TLVElement.scalar 2, TLVElement.scalar 3]),
        (ListOperation.AddItem, TLVElement.scalar 1),
        (ListOperation.AddItem, TLVElement.scalar 2)],
       Except.error { code := 7 }) :=
  C2_attr_list_write_abort (TLVElement.scalar 1) (TLVElement.scalar 2) (TLVElement.scalar 3)
    gW { code := 7 } rfl rfl rfl

/-- A TLV writer event, for observing what `encode_parts_list` emits:
`start_array`, a `u16` element, or `end_container`. -/
inductive TLVToken where
  | startArray
  | u16val (v : Nat)
  | endContainer
  deriving DecidableEq, Repr

/-- `DescriptorCluster::encode_parts_list`, with the `TLVWriter` modelled as
the list of emitted tokens.

Modelled from the spec: the `DataModel`/`Node` collaborator and its
`for_each_endpoint` contract are not part of the embedded sources; per the
spec's device-model boundary, iterating with the all-wildcard path yields
every endpoint of the device model together with its resolved path, whose
`endpoint` component is concrete.  The device model is therefore modelled as
the list of its endpoint ids, visited in iteration order. -/
def DescriptorCluster.encode_parts_list (endpoint_id : Nat) (dm_endpoints : List Nat) :
    List TLVToken :=
  TLVToken.startArray ::
    ((if endpoint_id = 0 then
        dm_endpoints.foldl
          (fun acc eid => if eid ≠ 0 then acc ++ [TLVToken.u16val eid] else acc) []
      else []) ++ [TLVToken.endContainer])

lemma encode_parts_foldl (eps : List Nat) (acc : List TLVToken) :
    eps.foldl (fun a eid => if eid ≠ 0 then a ++ [TLVToken.u16val eid] else a) acc =
      acc ++ (eps.filter (fun eid => eid ≠ 0)).map TLVToken.u16val := by
  induction eps generalizing acc with
  | nil => simp
  | cons e es ih =>
    rw [List.foldl_cons]
    by_cases he : e = 0
    · subst he
      rw [if_neg (by simp), ih, List.filter_cons_of_neg (by simp)]
    · rw [if_pos he, ih, List.filter_cons_of_pos (by simpa using he)]
      simp

/-- C10: with a non-zero `endpoint_id` the emitted parts list is the empty
array; with `endpoint_id = 0` it contains exactly the device model's
endpoint ids except endpoint 0, as `u16` elements in iteration order; in
either case the emitted list never contains the endpoint it describes. -/
theorem C10_encode_parts_list (endpoint_id : Nat) (dm_endpoints : List Nat) :
    (endpoint_id ≠ 0 →
      DescriptorCluster.encode_parts_list endpoint_id dm_endpoints =
        [TLVToken.startArray, TLVToken.endContainer]) ∧
    (endpoint_id = 0 →
      DescriptorCluster.encode_parts_list endpoint_id dm_endpoints =
        TLVToken.startArray ::
          ((dm_endpoints.filter (fun eid => eid ≠ 0)).map TLVToken.u16val ++
            [TLVToken.endContainer])) ∧
    TLVToken.u16val endpoint_id ∉ DescriptorCluster.encode_parts_list endpoint_id dm_endpoints := by
  refine ⟨?_, ?_, ?_⟩
  · intro h
    simp [DescriptorCluster.encode_parts_list, h]
  · intro h
    subst h
    unfold DescriptorCluster.encode_parts_list
    rw [if_pos rfl, encode_parts_foldl, List.nil_append]
  · by_cases h : endpoint_id = 0
    · subst h
      simp only [DescriptorCluster.encode_parts_list, if_pos rfl, encode_parts_foldl,
        List.nil_append]
      intro hmem
      rcases List.mem_cons.mp hmem with hc | hc
      · exact TLVToken.noConfusion hc
      · rcases List.mem_append.mp hc with hc2 | hc2
        · rcases List.mem_map.mp hc2 with ⟨e, hef, heq⟩
          have he0 : e = 0 := by
            cases heq
            rfl
          rw [he0] at hef
          simp at hef
        · simp at hc2
    · simp [DescriptorCluster.encode_parts_list, h]

/-- Witness for C10: a root descriptor over endpoints 0, 1, 2 lists exactly
endpoints 1 and 2. -/
theorem C10_encode_parts_list_witness :
    DescriptorCluster.encode_parts_list 0 [0, 1, 2] =
      [TLVToken.startArray, TLVToken.u16val 1, TLVToken.u16val 2, TLVToken.endContainer] := by
  rw [(C10_encode_parts_list 0 [0, 1, 2]).2.1 rfl]
  decide
